import Mathlib

/-!
Verification development for the Medical-Chatbot repository
(src/app.py and src/streamlit_app.py).

The development shallowly embeds the chat session store, the prompt handler,
and the lazy client-initialization logic of the two Streamlit scripts.
Python strings are embedded as Lean `String` (both are sequences of Unicode
code points, so Python slicing `s[:n]` is `String.take s n` and `len(s)` is
`String.length s`).  Python dicts (which preserve insertion order, update a
present key in place, and append an absent key at the end) are embedded as
association lists with exactly those operations.  The Streamlit UI event loop
is embedded as a step function over UI events; a sidebar button for a chat id
exists only when that id is a key of the session dict, which is reflected by
membership guards on the select/delete events.
-/

namespace MedicalChatbot

/-- Python dict lookup `d[k]` (as an `Option`, `none` embedding `KeyError`). -/
def dictGet {α : Type} : List (String × α) → String → Option α
  | [], _ => none
  | (k', v') :: rest, k => if k' = k then some v' else dictGet rest k

/-- Python dict assignment `d[k] = v`: replaces the value at a present key in
place (keeping its position in insertion order), appends at the end when the
key is absent. -/
def dictSet {α : Type} : List (String × α) → String → α → List (String × α)
  | [], k, v => [(k, v)]
  | (k', v') :: rest, k, v =>
    if k' = k then (k, v) :: rest else (k', v') :: dictSet rest k v

/-- Python `del d[k]`: removes the entry of key `k` (the first one; Python
dict keys are unique, which the reachable-state invariant below establishes
for the embedding). -/
def dictDel {α : Type} : List (String × α) → String → List (String × α)
  | [], _ => []
  | (k', v') :: rest, k => if k' = k then rest else (k', v') :: dictDel rest k

/-- Embedding of Python `str.startswith` on the underlying code points. -/
def list_startswith : List Char → List Char → Bool
  | [], _ => true
  | _ :: _, [] => false
  | p :: ps, c :: cs => p == c && list_startswith ps cs

/-- Python `s.startswith(p)`. -/
def str_startswith (s p : String) : Bool :=
  list_startswith p.data s.data

/-- A chat message, from the dicts appended in the prompt handlers
(src/app.py lines 288, 311-315, 320).  The success path stores a
`sources` key and the error path does not; key presence is embedded as
`Option`: `some` = the `sources` key is present. -/
structure Message where
  role : String
  content : String
  sources : Option (List String)
deriving Repr, DecidableEq

/-- One conversation, from the dict built in `create_new_chat`
(src/app.py lines 143-147). -/
structure Conversation where
  messages : List Message
  title : String
  timestamp : String
deriving Repr, DecidableEq

/-- The session-store state: `st.session_state.chat_sessions`,
`st.session_state.current_chat_id` and `st.session_state.chat_counter`
(src/app.py lines 95-98). -/
structure SessionState where
  chat_sessions : List (String × Conversation)
  current_chat_id : Option String
  chat_counter : Nat
deriving Repr, DecidableEq

/-- The initial session state (src/app.py lines 95-98). -/
def initState : SessionState :=
  { chat_sessions := [], current_chat_id := none, chat_counter := 0 }

/-- The id string built by the f-string `f"chat_{chat_counter}"`
(src/app.py line 141); Python renders the counter in decimal, which is
`Nat.repr`. -/
def chat_id_of (n : Nat) : String :=
  "chat_" ++ Nat.repr n

/-- The placeholder title built by `f"New Chat {chat_counter}"` after the
increment (src/app.py line 145). -/
def new_chat_title (n : Nat) : String :=
  "New Chat " ++ Nat.repr n

/-- src/app.py lines 140-149 (identical in src/streamlit_app.py lines
208-217): `create_new_chat` allocates the id from the pre-increment counter,
increments the counter, inserts an empty conversation whose placeholder title
shows the post-increment counter, and makes it active. -/
def create_new_chat (s : SessionState) (ts : String) : SessionState × String :=
  let chat_id := chat_id_of s.chat_counter
  let counter := s.chat_counter + 1
  let conv : Conversation :=
    { messages := [], title := new_chat_title counter, timestamp := ts }
  ({ chat_sessions := dictSet s.chat_sessions chat_id conv,
     current_chat_id := some chat_id,
     chat_counter := counter }, chat_id)

/-- The conditional expression at src/app.py line 158:
`first_message[:30] + "..." if len(first_message) > 30 else first_message`. -/
def derive_title (first_message : String) : String :=
  if first_message.length > 30 then first_message.take 30 ++ "..."
  else first_message

/-- src/app.py lines 156-159 (identical in src/streamlit_app.py lines
226-229): rewrite the title from the first message while it still carries the
placeholder form, truncating to 30 characters plus an ellipsis when longer.
A lookup miss embeds the `KeyError` Python would raise; all callers pass a
present key. -/
def update_chat_title (s : SessionState) (chat_id first_message : String) :
    SessionState :=
  match dictGet s.chat_sessions chat_id with
  | none => s
  | some conv =>
    if str_startswith conv.title "New Chat" then
      { s with chat_sessions :=
          (dictSet s.chat_sessions chat_id
            { conv with title := derive_title first_message }) }
    else s

/-- src/app.py lines 188-195 (identical in src/streamlit_app.py lines
259-266): the delete-chat button handler. `del` the entry; if the deleted id
was active, reassign the active id to `list(chat_sessions.keys())[-1]` when
conversations remain, else to `None`. -/
def delete_chat (s : SessionState) (chat_id : String) : SessionState :=
  let sessions := dictDel s.chat_sessions chat_id
  if s.current_chat_id = some chat_id then
    if sessions.length > 0 then
      { s with chat_sessions := sessions,
               current_chat_id := (sessions.map Prod.fst).getLast? }
    else
      { s with chat_sessions := sessions, current_chat_id := none }
  else
    { s with chat_sessions := sessions }

/-- src/app.py lines 184-185: clicking a history button makes that chat
active. -/
def select_chat (s : SessionState) (chat_id : String) : SessionState :=
  { s with current_chat_id := some chat_id }

/-- src/app.py lines 220-221: the Clear All Chats button empties the store
and clears the active id; the counter is not reset. -/
def clear_all_chats (s : SessionState) : SessionState :=
  { s with chat_sessions := [], current_chat_id := none }

/-- src/app.py line 304 (identical in src/streamlit_app.py line 410): the
rendered/stored text of one retrieved document,
`doc.page_content[:300] + "..."`. -/
def source_text (page_content : String) : String :=
  page_content.take 300 ++ "..."

/-- src/app.py lines 300-305: `sources_list` is built from the response only
when `source_documents` is non-empty (Python truthiness of the list) and the
Show Sources checkbox is on; otherwise it stays `[]`. -/
def sources_list (docs : List String) (show_sources : Bool) : List String :=
  if docs ≠ [] ∧ show_sources then docs.map source_text else []

/-- The outcome of the `try` block around `qa_chain({"query": prompt})`
(src/app.py lines 294-315): either the answer text together with the page
contents of the retrieved source documents, or the exception text caught by
the `except` branch. -/
inductive PipelineResult where
  | ok (result : String) (source_documents : List String)
  | err (e : String)
deriving Repr, DecidableEq

/-- The error string built at src/app.py line 318. -/
def error_message (e : String) : String :=
  "😔 Sorry, I encountered an error: " ++ e

/-- The user message dict appended at src/app.py line 288. -/
def user_message (prompt : String) : Message :=
  { role := "user", content := prompt, sources := none }

/-- The assistant message dict appended at src/app.py lines 311-315 (success
path: role, content and a `sources` key) or line 320 (except path: role and
content only, no `sources` key). -/
def assistant_message (show_sources : Bool) : PipelineResult → Message
  | .ok answer docs =>
    { role := "assistant", content := answer,
      sources := some (sources_list docs show_sources) }
  | .err e =>
    { role := "assistant", content := error_message e, sources := none }

/-- The message appends of one prompt run (src/app.py lines 288 and 311-320):
the user message is appended before the pipeline call and the assistant
message after it; both mutate the list object held by the active
conversation, so the embedding records the state at the end of the run. -/
def handle_prompt_append (s : SessionState) (cid prompt : String)
    (show_sources : Bool) (res : PipelineResult) : SessionState :=
  match dictGet s.chat_sessions cid with
  | none => s
  | some conv =>
    { s with chat_sessions :=
        (dictSet s.chat_sessions cid
          { conv with messages := conv.messages ++
              [user_message prompt, assistant_message show_sources res] }) }

/-- src/app.py lines 285-320: the body of `if prompt:` for a state with an
active conversation.  The title is rewritten only when the active
conversation has no messages yet (the gate at lines 285-286), then the two
messages are appended. -/
def handle_prompt_core (s : SessionState) (prompt : String)
    (show_sources : Bool) (res : PipelineResult) : SessionState :=
  match s.current_chat_id with
  | none => s
  | some cid =>
    match dictGet s.chat_sessions cid with
    | none => s
    | some conv =>
      handle_prompt_append
        (if conv.messages.length = 0 then update_chat_title s cid prompt
         else s)
        cid prompt show_sources res

/-- src/app.py lines 232-233 and 284-320 (same store effects in
src/streamlit_app.py lines 315-316 and 391-427): one run of the script with a
non-empty prompt.  Line 232 creates a conversation when none is active before
the prompt handler runs. -/
def handle_prompt (s : SessionState) (ts prompt : String) (show_sources : Bool)
    (res : PipelineResult) : SessionState :=
  handle_prompt_core
    (if s.current_chat_id = none then (create_new_chat s ts).1 else s)
    prompt show_sources res

/-- src/app.py lines 270-276: the renderer shows the sources expander for a
message exactly when the message has role assistant, the `sources` key is
present, and the checkbox is on. -/
def renders_sources (show_sources : Bool) (m : Message) : Bool :=
  m.role == "assistant" && m.sources.isSome && show_sources

/-- The UI events that mutate the session store.  `select` and `delete` carry
the id of a sidebar button, which exists only for a present key; `prompt`
carries the submitted text together with the abstract outcome of the pipeline
call. -/
inductive Event where
  | create (ts : String)
  | select (chat_id : String)
  | delete (chat_id : String)
  | clearAll
  | prompt (ts text : String) (show_sources : Bool) (res : PipelineResult)

/-- One UI event applied to the store.  The membership guards on `select` and
`delete` embed the fact that the sidebar renders a button only for keys of
`chat_sessions`. -/
def step (s : SessionState) : Event → SessionState
  | .create ts => (create_new_chat s ts).1
  | .select id =>
    if id ∈ s.chat_sessions.map Prod.fst then select_chat s id else s
  | .delete id =>
    if id ∈ s.chat_sessions.map Prod.fst then delete_chat s id else s
  | .clearAll => clear_all_chats s
  | .prompt ts text sw res => handle_prompt s ts text sw res

/-- The store state after a finite sequence of UI events from the initial
empty store. -/
def reach (es : List Event) : SessionState :=
  es.foldl step initState

/-- Reading decimal digit characters back, to invert the decimal rendering. -/
def ofDecChars (cs : List Char) : Nat :=
  cs.foldl (fun a c => 10 * a + (c.toNat - 48)) 0

/-- Per-conversation invariant: the key was allocated from the counter, a
conversation with no messages still carries a placeholder title, and a
conversation with messages opens with the user message its title was derived
from. -/
def ConvInv (counter : Nat) (p : String × Conversation) : Prop :=
  (∃ i, i < counter ∧ p.1 = chat_id_of i) ∧
  (p.2.messages = [] → ∃ i, p.2.title = new_chat_title i) ∧
  (∀ m0 ms, p.2.messages = m0 :: ms →
    m0.role = "user" ∧ p.2.title = derive_title m0.content)

/-- The session-store invariant: keys are duplicate-free, the active id is
none exactly when the store is empty, the active id is a present key, and
every conversation satisfies `ConvInv`. -/
def Inv (s : SessionState) : Prop :=
  (s.chat_sessions.map Prod.fst).Nodup ∧
  (s.current_chat_id = none ↔ s.chat_sessions = []) ∧
  (∀ cid, s.current_chat_id = some cid → cid ∈ s.chat_sessions.map Prod.fst) ∧
  (∀ p ∈ s.chat_sessions, ConvInv s.chat_counter p)

/-! The lazy initialization of src/streamlit_app.py (lines 99-205). -/

/-- The configuration of the QA chain constructed at src/streamlit_app.py
lines 156-185: the vector-store index, retriever top-k, chain type, and the
LLM configuration (floating-point temperature omitted).  Handle identity is
embedded as value equality of this record. -/
structure QAChain where
  index_name : String
  chain_type : String
  retriever_k : Nat
  model_name : String
  max_tokens : Nat
  timeout : Nat
deriving Repr, DecidableEq

/-- The chain value built by a successful run of the try block
(src/streamlit_app.py lines 156-185). -/
def mk_qa_chain : QAChain :=
  { index_name := "medical-chatbot-index", chain_type := "stuff",
    retriever_k := 3, model_name := "llama-3.3-70b-versatile",
    max_tokens := 512, timeout := 30 }

/-- The session-state flags used by `lazy_init_components`
(src/streamlit_app.py lines 30-33 and 187-188). -/
structure InitState where
  initialization_done : Bool
  lazy_load_triggered : Bool
  qa_chain : Option QAChain

/-- One `pc.create_index` call with its arguments
(src/streamlit_app.py lines 141-146). -/
structure CreateIndexCall where
  name : String
  dimension : Nat
  metric : String
deriving Repr, DecidableEq

/-- The observable effects of one `lazy_init_components` call: the issued
index-creation calls, how many times the QA chain was constructed, and the
final `wait_time` of the readiness loop. -/
structure InitEffects where
  create_index_calls : List CreateIndexCall
  qa_constructions : Nat
  waited : Nat
deriving Repr, DecidableEq

/-- The external world seen by `lazy_init_components`: the index listing at
the existence check (line 137), the poll results of the wait loop (line 151,
indexed by the current `wait_time`), and whether the try block raises before
the index check (steps 1-2) or after it (steps vectorstore/LLM/chain). -/
structure InitEnv where
  existing_indexes : List String
  listed_at : Nat → Bool
  fail_before_index : Bool
  fail_after_index : Bool

/-- The wait loop at src/streamlit_app.py lines 148-154:
`max_wait = 60; wait_time = 0; while wait_time < max_wait: if listed: break;
sleep(2); wait_time += 2`.  The loop body runs at most 30 times, so the fuel
argument (31 at the entry point) never runs out; the result is the final
`wait_time`. -/
def wait_loop (listed : Nat → Bool) : Nat → Nat → Nat
  | 0, wait_time => wait_time
  | fuel + 1, wait_time =>
    if wait_time < 60 then
      if listed wait_time then wait_time
      else wait_loop listed fuel (wait_time + 2)
    else wait_time

/-- The wait loop entered with `wait_time = 0`. -/
def wait_for_index (listed : Nat → Bool) : Nat :=
  wait_loop listed 31 0

/-- src/streamlit_app.py lines 99-205, `lazy_init_components`: an early
return of the cached chain once initialization is done (lines 101-102), an
early `None` before the first message (lines 104-105), then the try block:
connect clients, create the index with dimension 384 and cosine metric when
it is not listed and poll the listing for at most 60 seconds (lines 137-154)
— after which construction proceeds regardless of the poll outcome — and
memoize the constructed chain (lines 187-188).  A raise anywhere in the try
block returns `None` with the memoization flags untouched (lines 196-203). -/
def lazy_init_components (env : InitEnv) (s : InitState) :
    InitState × Option QAChain × InitEffects :=
  if s.initialization_done then
    (s, s.qa_chain, { create_index_calls := [], qa_constructions := 0, waited := 0 })
  else if s.lazy_load_triggered = false then
    (s, none, { create_index_calls := [], qa_constructions := 0, waited := 0 })
  else if env.fail_before_index then
    (s, none, { create_index_calls := [], qa_constructions := 0, waited := 0 })
  else
    let calls :=
      if "medical-chatbot-index" ∈ env.existing_indexes then ([] : List CreateIndexCall)
      else [{ name := "medical-chatbot-index", dimension := 384, metric := "cosine" }]
    let waited :=
      if "medical-chatbot-index" ∈ env.existing_indexes then 0
      else wait_for_index env.listed_at
    if env.fail_after_index then
      (s, none, { create_index_calls := calls, qa_constructions := 0, waited := waited })
    else
      ({ s with initialization_done := true, qa_chain := some mk_qa_chain },
       some mk_qa_chain,
       { create_index_calls := calls, qa_constructions := 1, waited := waited })

/-! Decimal rendering.  The f-strings of `create_new_chat` render the counter
through `Nat.repr`; the lemmas below show `Nat.repr` is injective, which makes
fresh chat ids distinct from all earlier ones. -/

/-- Decimal digit characters of a natural number, most significant first;
the specification that `Nat.toDigitsCore` computes. -/
def decChars (n : Nat) : List Char :=
  if n < 10 then [Nat.digitChar n]
  else decChars (n / 10) ++ [Nat.digitChar (n % 10)]
termination_by n
decreasing_by
  exact Nat.div_lt_self (by omega) (by omega)

theorem decChars_of_lt {n : Nat} (h : n < 10) :
    decChars n = [Nat.digitChar n] := by
  rw [decChars, if_pos h]

theorem decChars_of_ge {n : Nat} (h : 10 ≤ n) :
    decChars n = decChars (n / 10) ++ [Nat.digitChar (n % 10)] := by
  rw [decChars, if_neg (by omega)]

theorem toDigitsCore_eq_decChars :
    ∀ (fuel n : Nat), n < 10 ^ fuel →
      ∀ acc, Nat.toDigitsCore 10 (fuel + 1) n acc = decChars n ++ acc := by
  intro fuel
  induction fuel with
  | zero =>
    intro n hn acc
    have h0 : n = 0 := by simpa using hn
    subst h0
    rw [decChars_of_lt (by omega : (0 : Nat) < 10)]
    rfl
  | succ f ih =>
    intro n hn acc
    by_cases h0 : n / 10 = 0
    · have hn10 : n < 10 := by omega
      simp [Nat.toDigitsCore, h0, decChars_of_lt hn10, Nat.mod_eq_of_lt hn10]
    · have h10 : 10 ≤ n := by
        by_contra hlt
        exact h0 (Nat.div_eq_of_lt (by omega))
      have hdiv : n / 10 < 10 ^ f := by
        rw [Nat.div_lt_iff_lt_mul (by omega)]
        calc n < 10 ^ (f + 1) := hn
          _ = 10 ^ f * 10 := by rw [Nat.pow_succ]
      show Nat.toDigitsCore 10 (f + 1 + 1) n acc = decChars n ++ acc
      rw [Nat.toDigitsCore, if_neg h0, ih (n / 10) hdiv, decChars_of_ge h10,
        List.append_assoc]
      rfl

theorem repr_data (n : Nat) : (Nat.repr n).data = decChars n := by
  show (Nat.toDigits 10 n).asString.data = decChars n
  rw [Nat.toDigits, toDigitsCore_eq_decChars n n (Nat.lt_pow_self (by omega) n)]
  simp [List.asString]

theorem digitChar_toNat : ∀ d < 10, (Nat.digitChar d).toNat - 48 = d := by
  decide

theorem ofDecChars_append_singleton (l : List Char) (c : Char) :
    ofDecChars (l ++ [c]) = 10 * ofDecChars l + (c.toNat - 48) := by
  simp [ofDecChars, List.foldl_append]

theorem ofDecChars_decChars (n : Nat) : ofDecChars (decChars n) = n := by
  induction n using Nat.strong_induction_on with
  | _ n ih =>
    by_cases h : n < 10
    · rw [decChars_of_lt h]
      show ofDecChars ([] ++ [Nat.digitChar n]) = n
      rw [ofDecChars_append_singleton, digitChar_toNat n h]
      simp [ofDecChars]
    · have h10 : 10 ≤ n := by omega
      rw [decChars_of_ge h10, ofDecChars_append_singleton,
        ih (n / 10) (Nat.div_lt_self (by omega) (by omega)),
        digitChar_toNat (n % 10) (Nat.mod_lt n (by omega))]
      omega

theorem repr_injective : Function.Injective Nat.repr := by
  intro m n h
  have hd : decChars m = decChars n := by
    rw [← repr_data, ← repr_data, h]
  have := congrArg ofDecChars hd
  rwa [ofDecChars_decChars, ofDecChars_decChars] at this

theorem chat_id_of_injective : Function.Injective chat_id_of := by
  intro m n h
  apply repr_injective
  apply String.ext
  have hd := congrArg String.data h
  simp only [chat_id_of, String.data_append] at hd
  exact List.append_cancel_left hd

/-! Lemmas about the startswith embedding. -/

theorem list_startswith_append {p l1 : List Char} (l2 : List Char)
    (h : list_startswith p l1 = true) :
    list_startswith p (l1 ++ l2) = true := by
  induction p generalizing l1 with
  | nil => rfl
  | cons c cs ih =>
    cases l1 with
    | nil => simp [list_startswith] at h
    | cons d ds =>
      simp only [list_startswith, Bool.and_eq_true] at h ⊢
      exact ⟨h.1, ih h.2⟩

theorem new_chat_title_startswith (n : Nat) :
    str_startswith (new_chat_title n) "New Chat" = true := by
  show list_startswith "New Chat".data ("New Chat " ++ Nat.repr n).data = true
  rw [String.data_append]
  exact list_startswith_append _ (by decide)

/-! Lemmas about the Python-dict embedding. -/

theorem dictGet_cons {α : Type} (k₀ : String) (v₀ : α)
    (rest : List (String × α)) (k : String) :
    dictGet ((k₀, v₀) :: rest) k =
      if k₀ = k then some v₀ else dictGet rest k := rfl

theorem dictSet_cons {α : Type} (k₀ : String) (v₀ : α)
    (rest : List (String × α)) (k : String) (v : α) :
    dictSet ((k₀, v₀) :: rest) k v =
      if k₀ = k then (k, v) :: rest
      else (k₀, v₀) :: dictSet rest k v := rfl

theorem dictDel_cons {α : Type} (k₀ : String) (v₀ : α)
    (rest : List (String × α)) (k : String) :
    dictDel ((k₀, v₀) :: rest) k =
      if k₀ = k then rest else (k₀, v₀) :: dictDel rest k := rfl

theorem dictGet_dictSet_self {α : Type} (d : List (String × α)) (k : String)
    (v : α) : dictGet (dictSet d k v) k = some v := by
  induction d with
  | nil => simp [dictGet, dictSet]
  | cons p rest ih =>
    obtain ⟨k', v'⟩ := p
    by_cases h : k' = k
    · simp [dictSet, h, dictGet]
    · simp [dictSet, h, dictGet, ih]

theorem dictGet_dictSet_ne {α : Type} (d : List (String × α)) (k : String)
    (v : α) (k' : String) (h : k' ≠ k) :
    dictGet (dictSet d k v) k' = dictGet d k' := by
  induction d with
  | nil => simp [dictGet, dictSet, Ne.symm h]
  | cons p rest ih =>
    obtain ⟨k₀, v₀⟩ := p
    by_cases h0 : k₀ = k
    · subst h0
      simp [dictSet, dictGet, Ne.symm h]
    · simp only [dictSet, if_neg h0, dictGet]
      by_cases h1 : k₀ = k'
      · simp [h1]
      · simp [h1, ih]

theorem dictSet_fresh {α : Type} (d : List (String × α)) (k : String) (v : α)
    (h : k ∉ d.map Prod.fst) : dictSet d k v = d ++ [(k, v)] := by
  induction d with
  | nil => rfl
  | cons p rest ih =>
    obtain ⟨k₀, v₀⟩ := p
    simp only [List.map_cons, List.mem_cons] at h
    push_neg at h
    simp [dictSet, Ne.symm h.1, ih h.2]

theorem mem_keys_of_dictGet {α : Type} {d : List (String × α)} {k : String}
    {v : α} (h : dictGet d k = some v) : k ∈ d.map Prod.fst := by
  induction d with
  | nil => simp [dictGet] at h
  | cons p rest ih =>
    obtain ⟨k₀, v₀⟩ := p
    simp only [dictGet] at h
    by_cases h0 : k₀ = k
    · simp [h0]
    · simp only [if_neg h0] at h
      simp [ih h]

theorem dictGet_eq_none_of_not_mem {α : Type} {d : List (String × α)}
    {k : String} (h : k ∉ d.map Prod.fst) : dictGet d k = none := by
  induction d with
  | nil => rfl
  | cons p rest ih =>
    obtain ⟨k₀, v₀⟩ := p
    simp only [List.map_cons, List.mem_cons] at h
    push_neg at h
    simp [dictGet, Ne.symm h.1, ih h.2]

theorem mem_dictSet_of_nodup {α : Type} (d : List (String × α)) (k : String)
    (v : α) (p : String × α) :
    (d.map Prod.fst).Nodup → p ∈ dictSet d k v →
      p = (k, v) ∨ (p ∈ d ∧ p.1 ≠ k) := by
  induction d with
  | nil =>
    intro _ hp
    simp only [dictSet, List.mem_singleton] at hp
    exact Or.inl hp
  | cons q rest ih =>
    obtain ⟨k₀, v₀⟩ := q
    intro hnd hp
    simp only [List.map_cons, List.nodup_cons] at hnd
    by_cases h0 : k₀ = k
    · subst h0
      rw [dictSet_cons, if_pos rfl] at hp
      rcases List.mem_cons.mp hp with heq | hmem
      · exact Or.inl heq
      · right
        refine ⟨List.mem_cons_of_mem _ hmem, ?_⟩
        intro hk
        exact hnd.1 (hk ▸ List.mem_map_of_mem Prod.fst hmem)
    · rw [dictSet_cons, if_neg h0] at hp
      rcases List.mem_cons.mp hp with heq | hmem
      · subst heq
        exact Or.inr ⟨List.mem_cons_self _ _, h0⟩
      · rcases ih hnd.2 hmem with h | h
        · exact Or.inl h
        · exact Or.inr ⟨List.mem_cons_of_mem _ h.1, h.2⟩

theorem keys_dictSet {α : Type} (d : List (String × α)) (k : String) (v : α)
    (k' : String) :
    k' ∈ (dictSet d k v).map Prod.fst → k' = k ∨ k' ∈ d.map Prod.fst := by
  induction d with
  | nil =>
    intro h
    simp only [dictSet, List.map_cons, List.map_nil, List.mem_singleton] at h
    exact Or.inl h
  | cons q rest ih =>
    obtain ⟨k₀, v₀⟩ := q
    intro h
    by_cases h0 : k₀ = k
    · simp only [dictSet, if_pos h0, List.map_cons, List.mem_cons] at h
      rcases h with h | h
      · exact Or.inl h
      · exact Or.inr (by simp [h])
    · simp only [dictSet, if_neg h0, List.map_cons, List.mem_cons] at h
      rcases h with h | h
      · exact Or.inr (by simp [h])
      · rcases ih h with h | h
        · exact Or.inl h
        · exact Or.inr (by simp [h])

theorem nodup_keys_dictSet {α : Type} (d : List (String × α)) (k : String)
    (v : α) :
    (d.map Prod.fst).Nodup → ((dictSet d k v).map Prod.fst).Nodup := by
  induction d with
  | nil =>
    intro _
    simp [dictSet]
  | cons q rest ih =>
    obtain ⟨k₀, v₀⟩ := q
    intro hnd
    simp only [List.map_cons, List.nodup_cons] at hnd
    by_cases h0 : k₀ = k
    · subst h0
      simpa [dictSet, List.nodup_cons] using hnd
    · simp only [dictSet, if_neg h0, List.map_cons, List.nodup_cons]
      refine ⟨?_, ih hnd.2⟩
      intro hmem
      rcases keys_dictSet rest k v k₀ hmem with h | h
      · exact h0 h
      · exact hnd.1 h

theorem dictSet_ne_nil {α : Type} (d : List (String × α)) (k : String)
    (v : α) : dictSet d k v ≠ [] := by
  cases d with
  | nil => simp [dictSet]
  | cons q rest =>
    obtain ⟨k₀, v₀⟩ := q
    by_cases h0 : k₀ = k <;> simp [dictSet, h0]

theorem dictGet_some_mem {α : Type} {d : List (String × α)} {k : String}
    {v : α} : dictGet d k = some v → (k, v) ∈ d := by
  induction d with
  | nil =>
    intro h
    simp [dictGet] at h
  | cons q rest ih =>
    obtain ⟨k₀, v₀⟩ := q
    intro h
    rw [dictGet_cons] at h
    by_cases h0 : k₀ = k
    · rw [if_pos h0] at h
      obtain rfl := h0
      simp only [Option.some_inj] at h
      subst h
      exact List.mem_cons_self _ _
    · rw [if_neg h0] at h
      exact List.mem_cons_of_mem _ (ih h)

theorem mem_keys_dictSet_self {α : Type} (d : List (String × α)) (k : String)
    (v : α) : k ∈ (dictSet d k v).map Prod.fst :=
  mem_keys_of_dictGet (dictGet_dictSet_self d k v)

theorem mem_keys_dictSet_of_mem {α : Type} (d : List (String × α))
    (k : String) (v : α) (k' : String) :
    k' ∈ d.map Prod.fst → k' ∈ (dictSet d k v).map Prod.fst := by
  induction d with
  | nil =>
    intro h
    simp at h
  | cons q rest ih =>
    obtain ⟨k₀, v₀⟩ := q
    intro h
    rw [dictSet_cons]
    simp only [List.map_cons, List.mem_cons] at h
    by_cases h0 : k₀ = k
    · rw [if_pos h0]
      rcases h with h | h
      · simp [h, h0]
      · simp [h]
    · rw [if_neg h0]
      rcases h with h | h
      · simp [h]
      · simp [ih h]

theorem dictDel_sublist {α : Type} (d : List (String × α)) (k : String) :
    List.Sublist (dictDel d k) d := by
  induction d with
  | nil => simp [dictDel]
  | cons q rest ih =>
    obtain ⟨k₀, v₀⟩ := q
    rw [dictDel_cons]
    by_cases h0 : k₀ = k
    · rw [if_pos h0]
      exact List.sublist_cons_self _ _
    · rw [if_neg h0]
      exact ih.cons₂ _

theorem mem_dictDel {α : Type} {d : List (String × α)} {k : String}
    {p : String × α} (hp : p ∈ dictDel d k) : p ∈ d :=
  (dictDel_sublist d k).mem hp

theorem nodup_keys_dictDel {α : Type} (d : List (String × α)) (k : String)
    (hnd : (d.map Prod.fst).Nodup) : ((dictDel d k).map Prod.fst).Nodup :=
  hnd.sublist ((dictDel_sublist d k).map Prod.fst)

theorem mem_keys_dictDel {α : Type} (d : List (String × α)) (k k' : String)
    (h : k' ≠ k) :
    k' ∈ d.map Prod.fst → k' ∈ (dictDel d k).map Prod.fst := by
  induction d with
  | nil =>
    intro hm
    simp at hm
  | cons q rest ih =>
    obtain ⟨k₀, v₀⟩ := q
    intro hm
    simp only [List.map_cons, List.mem_cons] at hm
    by_cases h0 : k₀ = k
    · subst h0
      rcases hm with hm | hm
      · exact absurd hm h
      · simpa [dictDel] using hm
    · rcases hm with hm | hm
      · simp [dictDel, h0, hm]
      · simp [dictDel, h0, ih hm]

theorem dictGet_dictDel_ne {α : Type} (d : List (String × α)) (k k' : String)
    (h : k' ≠ k) : dictGet (dictDel d k) k' = dictGet d k' := by
  induction d with
  | nil => rfl
  | cons q rest ih =>
    obtain ⟨k₀, v₀⟩ := q
    by_cases h0 : k₀ = k
    · subst h0
      simp [dictDel, dictGet, Ne.symm h]
    · simp only [dictDel, if_neg h0, dictGet]
      by_cases h1 : k₀ = k'
      · simp [h1]
      · simp [h1, ih]

theorem dictGet_dictDel_self {α : Type} (d : List (String × α)) (k : String) :
    (d.map Prod.fst).Nodup → dictGet (dictDel d k) k = none := by
  induction d with
  | nil =>
    intro _
    rfl
  | cons q rest ih =>
    obtain ⟨k₀, v₀⟩ := q
    intro hnd
    simp only [List.map_cons, List.nodup_cons] at hnd
    by_cases h0 : k₀ = k
    · subst h0
      rw [dictDel_cons, if_pos rfl]
      exact dictGet_eq_none_of_not_mem hnd.1
    · rw [dictDel_cons, if_neg h0, dictGet_cons, if_neg h0]
      exact ih hnd.2

theorem dictDel_eq_filter {α : Type} (d : List (String × α)) (k : String) :
    (d.map Prod.fst).Nodup →
      dictDel d k = d.filter (fun p => decide (p.1 ≠ k)) := by
  induction d with
  | nil =>
    intro _
    rfl
  | cons q rest ih =>
    obtain ⟨k₀, v₀⟩ := q
    intro hnd
    simp only [List.map_cons, List.nodup_cons] at hnd
    by_cases h0 : k₀ = k
    · subst h0
      rw [dictDel_cons, if_pos rfl]
      have hstep : List.filter (fun p : String × α => decide (p.1 ≠ k₀))
          ((k₀, v₀) :: rest) =
          List.filter (fun p : String × α => decide (p.1 ≠ k₀)) rest := by
        simp [List.filter_cons]
      rw [hstep]
      symm
      rw [List.filter_eq_self]
      intro p hp
      simp only [decide_eq_true_eq]
      intro hk
      exact hnd.1 (hk ▸ List.mem_map_of_mem Prod.fst hp)
    · rw [dictDel_cons, if_neg h0, List.filter_cons]
      rw [if_pos (show decide ((k₀, v₀).1 ≠ k) = true by simp [h0])]
      rw [ih hnd.2]

/-! The reachable-state invariant of the session store. -/

theorem ConvInv_mono {c c' : Nat} (h : c ≤ c') (p : String × Conversation)
    (hp : ConvInv c p) : ConvInv c' p := by
  obtain ⟨⟨i, hi, hk⟩, h2, h3⟩ := hp
  exact ⟨⟨i, lt_of_lt_of_le hi h, hk⟩, h2, h3⟩

theorem Inv_initState : Inv initState := by
  refine ⟨?_, ?_, ?_, ?_⟩ <;> simp [initState, Inv]

/-- Freshness: under the invariant the id allocated by `create_new_chat` is
not a key of the current store. -/
theorem fresh_key {s : SessionState} (hInv : Inv s) :
    chat_id_of s.chat_counter ∉ s.chat_sessions.map Prod.fst := by
  intro hmem
  obtain ⟨p, hp, hfst⟩ := List.mem_map.mp hmem
  obtain ⟨⟨i, hi, hk⟩, -, -⟩ := hInv.2.2.2 p hp
  have : i = s.chat_counter := chat_id_of_injective (by rw [← hk, hfst])
  omega

theorem create_preserves {s : SessionState} (ts : String) (hInv : Inv s) :
    Inv (create_new_chat s ts).1 := by
  have hfresh := fresh_key hInv
  obtain ⟨hnd, hiff, hactive, hconv⟩ := hInv
  have happ := dictSet_fresh s.chat_sessions (chat_id_of s.chat_counter)
    { messages := [], title := new_chat_title (s.chat_counter + 1),
      timestamp := ts } hfresh
  refine ⟨?_, ?_, ?_, ?_⟩
  · exact nodup_keys_dictSet _ _ _ hnd
  · constructor
    · intro h
      simp [create_new_chat] at h
    · intro h
      exact absurd h (dictSet_ne_nil _ _ _)
  · intro cid hcid
    simp only [create_new_chat, Option.some_inj] at hcid
    subst hcid
    exact mem_keys_dictSet_self _ _ _
  · intro p hp
    simp only [create_new_chat] at hp
    rw [happ] at hp
    rcases List.mem_append.mp hp with hp | hp
    · exact ConvInv_mono (Nat.le_succ _) p (hconv p hp)
    · simp only [List.mem_singleton] at hp
      subst hp
      refine ⟨⟨s.chat_counter, Nat.lt_succ_self _, rfl⟩, ?_, ?_⟩
      · intro _
        exact ⟨s.chat_counter + 1, rfl⟩
      · intro m0 ms hm
        simp at hm

theorem select_preserves {s : SessionState} {id : String}
    (hmem : id ∈ s.chat_sessions.map Prod.fst) (hInv : Inv s) :
    Inv (select_chat s id) := by
  obtain ⟨hnd, hiff, hactive, hconv⟩ := hInv
  refine ⟨hnd, ?_, ?_, hconv⟩
  · constructor
    · intro h
      simp [select_chat] at h
    · intro h
      simp only [select_chat] at h
      rw [h] at hmem
      simp at hmem
  · intro cid hcid
    simp only [select_chat, Option.some_inj] at hcid
    subst hcid
    exact hmem

theorem clear_preserves {s : SessionState} (hInv : Inv s) :
    Inv (clear_all_chats s) := by
  refine ⟨?_, ?_, ?_, ?_⟩ <;> simp [clear_all_chats]

theorem delete_preserves {s : SessionState} {id : String}
    (hmem : id ∈ s.chat_sessions.map Prod.fst) (hInv : Inv s) :
    Inv (delete_chat s id) := by
  obtain ⟨hnd, hiff, hactive, hconv⟩ := hInv
  have hnd' := nodup_keys_dictDel s.chat_sessions id hnd
  have hconv' : ∀ p ∈ dictDel s.chat_sessions id,
      ConvInv s.chat_counter p := fun p hp => hconv p (mem_dictDel hp)
  unfold delete_chat
  by_cases hcur : s.current_chat_id = some id
  · rw [if_pos hcur]
    by_cases hlen : (dictDel s.chat_sessions id).length > 0
    · rw [if_pos hlen]
      have hne : (dictDel s.chat_sessions id).map Prod.fst ≠ [] := by
        intro h
        rw [← List.length_eq_zero, List.length_map] at h
        omega
      obtain ⟨a, ha⟩ := Option.isSome_iff_exists.mp
        (List.getLast?_isSome.mpr hne)
      refine ⟨hnd', ?_, ?_, hconv'⟩
      · simp only [ha]
        constructor
        · intro h
          simp at h
        · intro h
          rw [h] at hlen
          simp [dictDel] at hlen
      · intro cid hcid
        simp only [ha, Option.some_inj] at hcid
        subst hcid
        exact List.mem_of_getLast?_eq_some ha
    · rw [if_neg hlen]
      have hempty : dictDel s.chat_sessions id = [] := by
        rw [← List.length_eq_zero]
        omega
      refine ⟨hnd', ?_, ?_, hconv'⟩
      · simp [hempty]
      · intro cid hcid
        simp at hcid
  · rw [if_neg hcur]
    cases hc : s.current_chat_id with
    | none =>
      have : s.chat_sessions = [] := hiff.mp hc
      rw [this] at hmem
      simp at hmem
    | some a =>
      have hane : a ≠ id := by
        intro h
        exact hcur (h ▸ hc)
      have hmem' : a ∈ (dictDel s.chat_sessions id).map Prod.fst :=
        mem_keys_dictDel s.chat_sessions id a hane (hactive a hc)
      refine ⟨hnd', ?_, ?_, hconv'⟩
      · simp only [hc]
        constructor
        · intro h
          simp at h
        · intro h
          rw [h] at hmem'
          simp at hmem'
      · intro cid hcid
        simp only [hc, Option.some_inj] at hcid
        subst hcid
        exact hmem'

/-! Equations for the prompt-handler pieces. -/

theorem update_chat_title_eq_pos {s : SessionState} {cid : String}
    {conv : Conversation} (p : String)
    (hconv : dictGet s.chat_sessions cid = some conv)
    (hsw : str_startswith conv.title "New Chat" = true) :
    update_chat_title s cid p =
      { s with chat_sessions :=
          (dictSet s.chat_sessions cid
            { conv with title := derive_title p }) } := by
  unfold update_chat_title
  rw [hconv]
  simp only [hsw, if_true]

theorem update_chat_title_eq_neg {s : SessionState} {cid : String}
    {conv : Conversation} (p : String)
    (hconv : dictGet s.chat_sessions cid = some conv)
    (hsw : str_startswith conv.title "New Chat" = false) :
    update_chat_title s cid p = s := by
  unfold update_chat_title
  rw [hconv]
  simp only [hsw]
  rfl

theorem handle_prompt_append_eq {s : SessionState} {cid : String}
    {conv : Conversation} (p : String) (sw : Bool) (res : PipelineResult)
    (hconv : dictGet s.chat_sessions cid = some conv) :
    handle_prompt_append s cid p sw res =
      { s with chat_sessions :=
          (dictSet s.chat_sessions cid
            { conv with messages := conv.messages ++
                [user_message p, assistant_message sw res] }) } := by
  unfold handle_prompt_append
  rw [hconv]

/-- The first three `Inv` conjuncts for a state whose sessions are a
`dictSet` at the active key. -/
theorem Inv_head_dictSet {s : SessionState} {cid : String}
    (hcur : s.current_chat_id = some cid)
    (d : List (String × Conversation)) (v : Conversation)
    (hnd : (d.map Prod.fst).Nodup) :
    (((dictSet d cid v).map Prod.fst).Nodup) ∧
    (s.current_chat_id = none ↔ dictSet d cid v = []) ∧
    (∀ cid', s.current_chat_id = some cid' →
      cid' ∈ (dictSet d cid v).map Prod.fst) := by
  refine ⟨nodup_keys_dictSet _ _ _ hnd, ?_, ?_⟩
  · constructor
    · intro h
      rw [hcur] at h
      simp at h
    · intro h
      exact absurd h (dictSet_ne_nil _ _ _)
  · intro cid' hcid'
    rw [hcur] at hcid'
    simp only [Option.some_inj] at hcid'
    subst hcid'
    exact mem_keys_dictSet_self _ _ _

theorem core_preserves {s : SessionState} (p : String) (sw : Bool)
    (res : PipelineResult) (hInv : Inv s) :
    Inv (handle_prompt_core s p sw res) := by
  unfold handle_prompt_core
  split
  · exact hInv
  next cid hcur =>
    split
    · exact hInv
    next conv hconv =>
      have hmem0 : (cid, conv) ∈ s.chat_sessions := dictGet_some_mem hconv
      obtain ⟨hkey0, hemp0, hcons0⟩ := hInv.2.2.2 _ hmem0
      by_cases hlen : conv.messages.length = 0
      · rw [if_pos hlen]
        have hmsgs : conv.messages = [] := List.length_eq_zero.mp hlen
        obtain ⟨i, hti⟩ := hemp0 hmsgs
        have hsw : str_startswith conv.title "New Chat" = true := by
          rw [hti]
          exact new_chat_title_startswith i
        rw [update_chat_title_eq_pos p hconv hsw]
        rw [handle_prompt_append_eq p sw res
          (dictGet_dictSet_self s.chat_sessions cid
            { conv with title := derive_title p })]
        obtain ⟨h1, h2, h3⟩ := Inv_head_dictSet hcur
          (dictSet s.chat_sessions cid { conv with title := derive_title p })
          _ (nodup_keys_dictSet _ _ _ hInv.1)
        refine ⟨h1, h2, h3, ?_⟩
        intro q hq
        rcases mem_dictSet_of_nodup _ _ _ q
          (nodup_keys_dictSet _ _ _ hInv.1) hq with rfl | ⟨hq1, hqne⟩
        · refine ⟨hkey0, ?_, ?_⟩
          · intro habs
            simp [hmsgs] at habs
          · intro m0 ms hm
            simp only [hmsgs, List.nil_append, List.cons.injEq] at hm
            obtain ⟨rfl, -⟩ := hm
            exact ⟨rfl, rfl⟩
        · rcases mem_dictSet_of_nodup _ _ _ q hInv.1 hq1 with rfl | ⟨hq2, -⟩
          · exact absurd rfl hqne
          · exact hInv.2.2.2 _ hq2
      · rw [if_neg hlen]
        obtain ⟨m0, ms, hm0⟩ : ∃ m0 ms, conv.messages = m0 :: ms := by
          cases hmsg : conv.messages with
          | nil =>
            rw [hmsg] at hlen
            simp at hlen
          | cons a l => exact ⟨a, l, rfl⟩
        rw [handle_prompt_append_eq p sw res hconv]
        obtain ⟨h1, h2, h3⟩ := Inv_head_dictSet hcur s.chat_sessions _ hInv.1
        refine ⟨h1, h2, h3, ?_⟩
        intro q hq
        rcases mem_dictSet_of_nodup _ _ _ q hInv.1 hq with rfl | ⟨hq1, -⟩
        · obtain ⟨hrole, htitle⟩ := hcons0 m0 ms hm0
          refine ⟨hkey0, ?_, ?_⟩
          · intro habs
            simp [hm0] at habs
          · intro m0' ms' hm
            simp only [hm0, List.cons_append, List.cons.injEq] at hm
            obtain ⟨rfl, -⟩ := hm
            exact ⟨hrole, htitle⟩
        · exact hInv.2.2.2 _ hq1

theorem handle_prompt_preserves {s : SessionState} (ts p : String) (sw : Bool)
    (res : PipelineResult) (hInv : Inv s) :
    Inv (handle_prompt s ts p sw res) := by
  unfold handle_prompt
  by_cases hc : s.current_chat_id = none
  · rw [if_pos hc]
    exact core_preserves p sw res (create_preserves ts hInv)
  · rw [if_neg hc]
    exact core_preserves p sw res hInv

theorem step_preserves {s : SessionState} (e : Event) (hInv : Inv s) :
    Inv (step s e) := by
  cases e with
  | create ts => exact create_preserves ts hInv
  | select id =>
    show Inv (if id ∈ s.chat_sessions.map Prod.fst then select_chat s id else s)
    by_cases h : id ∈ s.chat_sessions.map Prod.fst
    · rw [if_pos h]
      exact select_preserves h hInv
    · rw [if_neg h]
      exact hInv
  | delete id =>
    show Inv (if id ∈ s.chat_sessions.map Prod.fst then delete_chat s id else s)
    by_cases h : id ∈ s.chat_sessions.map Prod.fst
    · rw [if_pos h]
      exact delete_preserves h hInv
    · rw [if_neg h]
      exact hInv
  | clearAll => exact clear_preserves hInv
  | prompt ts text sw res => exact handle_prompt_preserves ts text sw res hInv

theorem foldl_preserves (es : List Event) :
    ∀ s : SessionState, Inv s → Inv (es.foldl step s) := by
  induction es with
  | nil =>
    intro s hInv
    exact hInv
  | cons e rest ih =>
    intro s hInv
    exact ih (step s e) (step_preserves e hInv)

theorem reach_Inv (es : List Event) : Inv (reach es) :=
  foldl_preserves es initState Inv_initState

/-! Characterization of one prompt run on a state with an active, present
conversation, and equations for the delete handler. -/

theorem handle_prompt_spec (s : SessionState) (ts p : String) (sw : Bool)
    (res : PipelineResult) (cid : String) (conv : Conversation)
    (hcur : s.current_chat_id = some cid)
    (hconv : dictGet s.chat_sessions cid = some conv) :
    ∃ conv', dictGet (handle_prompt s ts p sw res).chat_sessions cid =
        some conv' ∧
      conv'.messages = conv.messages ++
        [user_message p, assistant_message sw res] ∧
      (handle_prompt s ts p sw res).current_chat_id = some cid := by
  unfold handle_prompt
  rw [if_neg (by simp [hcur])]
  unfold handle_prompt_core
  split
  next hnone => rw [hcur] at hnone; cases hnone
  next cid' hcid' =>
    rw [hcur] at hcid'
    obtain rfl : cid = cid' := by
      simpa using hcid'
    split
    next hnone => rw [hconv] at hnone; cases hnone
    next conv'' hconv'' =>
      rw [hconv] at hconv''
      obtain rfl : conv = conv'' := by
        simpa using hconv''
      by_cases hlen : conv.messages.length = 0
      · rw [if_pos hlen]
        cases hsw : str_startswith conv.title "New Chat" with
        | true =>
          rw [update_chat_title_eq_pos p hconv hsw]
          rw [handle_prompt_append_eq p sw res
            (dictGet_dictSet_self s.chat_sessions cid
              { conv with title := derive_title p })]
          exact ⟨_, dictGet_dictSet_self _ _ _, rfl, hcur⟩
        | false =>
          rw [update_chat_title_eq_neg p hconv hsw]
          rw [handle_prompt_append_eq p sw res hconv]
          exact ⟨_, dictGet_dictSet_self _ _ _, rfl, hcur⟩
      · rw [if_neg hlen]
        rw [handle_prompt_append_eq p sw res hconv]
        exact ⟨_, dictGet_dictSet_self _ _ _, rfl, hcur⟩

theorem delete_chat_sessions (s : SessionState) (cid : String) :
    (delete_chat s cid).chat_sessions = dictDel s.chat_sessions cid := by
  unfold delete_chat
  by_cases hcur : s.current_chat_id = some cid
  · rw [if_pos hcur]
    by_cases hlen : (dictDel s.chat_sessions cid).length > 0
    · rw [if_pos hlen]
    · rw [if_neg hlen]
  · rw [if_neg hcur]

theorem delete_chat_current_active_nonempty (s : SessionState) (cid : String)
    (hcur : s.current_chat_id = some cid)
    (hne : dictDel s.chat_sessions cid ≠ []) :
    (delete_chat s cid).current_chat_id =
      ((dictDel s.chat_sessions cid).map Prod.fst).getLast? := by
  unfold delete_chat
  rw [if_pos hcur, if_pos (List.length_pos.mpr hne)]

theorem delete_chat_current_active_empty (s : SessionState) (cid : String)
    (hcur : s.current_chat_id = some cid)
    (hemp : dictDel s.chat_sessions cid = []) :
    (delete_chat s cid).current_chat_id = none := by
  unfold delete_chat
  rw [if_pos hcur, if_neg (by simp [hemp])]

theorem delete_chat_current_inactive (s : SessionState) (cid : String)
    (hcur : s.current_chat_id ≠ some cid) :
    (delete_chat s cid).current_chat_id = s.current_chat_id := by
  unfold delete_chat
  rw [if_neg hcur]

/-! Bounds for the index wait loop, and string truncation. -/

theorem wait_loop_le (listed : Nat → Bool) :
    ∀ fuel wt, wt % 2 = 0 → wt ≤ 60 → wait_loop listed fuel wt ≤ 60 := by
  intro fuel
  induction fuel with
  | zero =>
    intro wt _ hle
    exact hle
  | succ f ih =>
    intro wt heven hle
    show (if wt < 60 then if listed wt then wt
          else wait_loop listed f (wt + 2) else wt) ≤ 60
    by_cases hlt : wt < 60
    · rw [if_pos hlt]
      by_cases hl : listed wt = true
      · rw [if_pos hl]
        exact hle
      · rw [if_neg hl]
        exact ih (wt + 2) (by omega) (by omega)
    · rw [if_neg hlt]
      exact hle

theorem wait_for_index_le (listed : Nat → Bool) :
    wait_for_index listed ≤ 60 :=
  wait_loop_le listed 31 0 rfl (by omega)

theorem str_length_eq_data (s : String) : s.length = s.data.length := rfl

theorem str_take_of_le (s : String) (n : Nat) (h : s.length ≤ n) :
    s.take n = s := by
  apply String.ext
  rw [String.data_take]
  refine List.take_of_length_le ?_
  cases s
  simpa using h

/-! The claims. -/

/-- C1: starting from the empty store, after every finite sequence of UI
events — in particular every sequence of createConversation
(`create_new_chat`) and deleteConversation (delete-button) operations — the
active id is `none` if and only if the conversation map is empty, and a set
active id always refers to a key present in the map. -/
theorem C1_session_store_active_id_invariant (es : List Event) :
    ((reach es).current_chat_id = none ↔ (reach es).chat_sessions = []) ∧
    (∀ cid, (reach es).current_chat_id = some cid →
      cid ∈ (reach es).chat_sessions.map Prod.fst) :=
  ⟨(reach_Inv es).2.1, (reach_Inv es).2.2.1⟩

theorem C1_session_store_active_id_invariant_witness :
    "chat_1" ∈ ((reach [Event.create "t", Event.create "t",
        Event.delete "chat_0"]).chat_sessions.map Prod.fst) :=
  (C1_session_store_active_id_invariant
    [Event.create "t", Event.create "t", Event.delete "chat_0"]).2
    "chat_1" rfl

/-- C9: on every reachable store, `create_new_chat` increments the counter,
allocates the id from the pre-increment counter value, and that id is not a
key of the current map, so the insertion appends a fresh empty conversation
and leaves every existing conversation (its messages and title) intact. -/
theorem C9_conversation_ids_never_reused (es : List Event) (ts : String) :
    (create_new_chat (reach es) ts).1.chat_counter
        = (reach es).chat_counter + 1 ∧
    (create_new_chat (reach es) ts).2 = chat_id_of (reach es).chat_counter ∧
    chat_id_of (reach es).chat_counter ∉
      (reach es).chat_sessions.map Prod.fst ∧
    (create_new_chat (reach es) ts).1.chat_sessions =
      (reach es).chat_sessions ++
        [(chat_id_of (reach es).chat_counter,
          { messages := [],
            title := new_chat_title ((reach es).chat_counter + 1),
            timestamp := ts })] := by
  refine ⟨rfl, rfl, fresh_key (reach_Inv es), ?_⟩
  exact dictSet_fresh _ _ _ (fresh_key (reach_Inv es))

/-- C4: in every reachable store, a conversation with at least one message
has as first message a user message, and its title equals the title derived
from that first user message (30-character truncation rule); later events
never change it, since the title of every reachable conversation with
messages is determined by its first message alone. -/
theorem C4_title_rewritten_exactly_once (es : List Event) (cid : String)
    (conv : Conversation) (m0 : Message) (ms : List Message)
    (hconv : dictGet (reach es).chat_sessions cid = some conv)
    (hm : conv.messages = m0 :: ms) :
    m0.role = "user" ∧ conv.title = derive_title m0.content :=
  ((reach_Inv es).2.2.2 _ (dictGet_some_mem hconv)).2.2 m0 ms hm

theorem C4_title_rewritten_exactly_once_witness :
    ("user" : String) = "user" ∧
    ("hello doctor" : String) = derive_title "hello doctor" :=
  C4_title_rewritten_exactly_once
    [Event.prompt "t" "hello doctor" true (PipelineResult.ok "ans" []),
     Event.prompt "t" "second, much later message content" false
       (PipelineResult.err "x")]
    "chat_0"
    { messages := [user_message "hello doctor",
        assistant_message true (PipelineResult.ok "ans" []),
        user_message "second, much later message content",
        assistant_message false (PipelineResult.err "x")],
      title := "hello doctor", timestamp := "t" }
    (user_message "hello doctor")
    [assistant_message true (PipelineResult.ok "ans" []),
     user_message "second, much later message content",
     assistant_message false (PipelineResult.err "x")]
    rfl rfl

/-- C6: when the title is assigned from a first message while the
conversation still carries its placeholder title, a message of at most 30
characters becomes the title verbatim, and a longer message yields exactly
its first 30 characters followed by the ellipsis marker. -/
theorem C6_title_truncation (s : SessionState) (cid : String)
    (conv : Conversation) (msg : String)
    (hconv : dictGet s.chat_sessions cid = some conv)
    (hsw : str_startswith conv.title "New Chat" = true) :
    (msg.length ≤ 30 →
      dictGet (update_chat_title s cid msg).chat_sessions cid =
        some { conv with title := msg }) ∧
    (msg.length > 30 →
      dictGet (update_chat_title s cid msg).chat_sessions cid =
        some { conv with title := msg.take 30 ++ "..." }) := by
  rw [update_chat_title_eq_pos msg hconv hsw]
  constructor
  · intro hle
    have hder : derive_title msg = msg := by
      unfold derive_title
      rw [if_neg (by omega)]
    rw [dictGet_dictSet_self, hder]
  · intro hgt
    have hder : derive_title msg = msg.take 30 ++ "..." := by
      unfold derive_title
      rw [if_pos hgt]
    rw [dictGet_dictSet_self, hder]

set_option maxRecDepth 20000 in
theorem C6_title_truncation_witness :
    dictGet (update_chat_title
      { chat_sessions := [("chat_0",
          { messages := [], title := "New Chat 1", timestamp := "t" })],
        current_chat_id := some "chat_0", chat_counter := 1 }
      "chat_0" "short title").chat_sessions "chat_0" =
      some { messages := [], title := "short title", timestamp := "t" } ∧
    dictGet (update_chat_title
      { chat_sessions := [("chat_0",
          { messages := [], title := "New Chat 1", timestamp := "t" })],
        current_chat_id := some "chat_0", chat_counter := 1 }
      "chat_0" "aaaaaaaaaaaaaaaaaaaaaaaaaaaaaaaaaaa").chat_sessions
        "chat_0" =
      some { messages := [], title := "aaaaaaaaaaaaaaaaaaaaaaaaaaaaaa...",
             timestamp := "t" } :=
  ⟨(C6_title_truncation
      { chat_sessions := [("chat_0",
          { messages := [], title := "New Chat 1", timestamp := "t" })],
        current_chat_id := some "chat_0", chat_counter := 1 }
      "chat_0" { messages := [], title := "New Chat 1", timestamp := "t" }
      "short title" rfl rfl).1 (by decide),
   (C6_title_truncation
      { chat_sessions := [("chat_0",
          { messages := [], title := "New Chat 1", timestamp := "t" })],
        current_chat_id := some "chat_0", chat_counter := 1 }
      "chat_0" { messages := [], title := "New Chat 1", timestamp := "t" }
      "aaaaaaaaaaaaaaaaaaaaaaaaaaaaaaaaaaa" rfl rfl).2 (by decide)⟩

/-- C5: for every store state with duplicate-free keys (the Python-dict
invariant), deleting a conversation by id removes exactly that entry
(other entries and their order are untouched); if the deleted id was active
and conversations remain, the new active id is the last remaining key in
insertion order; if the store becomes empty the active id becomes none; if
the deleted id was not active the active id is unchanged. -/
theorem C5_delete_conversation_reassignment (s : SessionState) (cid : String)
    (hnd : (s.chat_sessions.map Prod.fst).Nodup) :
    (delete_chat s cid).chat_sessions =
      s.chat_sessions.filter (fun q => decide (q.1 ≠ cid)) ∧
    dictGet (delete_chat s cid).chat_sessions cid = none ∧
    (∀ k, k ≠ cid → dictGet (delete_chat s cid).chat_sessions k =
      dictGet s.chat_sessions k) ∧
    (s.current_chat_id = some cid → (delete_chat s cid).chat_sessions ≠ [] →
      (delete_chat s cid).current_chat_id =
        (((delete_chat s cid).chat_sessions).map Prod.fst).getLast?) ∧
    (s.current_chat_id = some cid → (delete_chat s cid).chat_sessions = [] →
      (delete_chat s cid).current_chat_id = none) ∧
    (s.current_chat_id ≠ some cid →
      (delete_chat s cid).current_chat_id = s.current_chat_id) := by
  refine ⟨?_, ?_, ?_, ?_, ?_, ?_⟩
  · rw [delete_chat_sessions]
    exact dictDel_eq_filter _ _ hnd
  · rw [delete_chat_sessions]
    exact dictGet_dictDel_self _ _ hnd
  · intro k hk
    rw [delete_chat_sessions]
    exact dictGet_dictDel_ne _ _ _ hk
  · intro hcur hne
    rw [delete_chat_sessions] at hne ⊢
    exact delete_chat_current_active_nonempty s cid hcur hne
  · intro hcur hemp
    rw [delete_chat_sessions] at hemp
    exact delete_chat_current_active_empty s cid hcur hemp
  · exact delete_chat_current_inactive s cid

theorem C5_delete_conversation_reassignment_witness :
    dictGet (delete_chat
      { chat_sessions :=
          [("chat_0", { messages := [], title := "New Chat 1",
                        timestamp := "t" }),
           ("chat_1", { messages := [], title := "New Chat 2",
                        timestamp := "t" })],
        current_chat_id := some "chat_0", chat_counter := 2 }
      "chat_0").chat_sessions "chat_0" = none ∧
    (delete_chat
      { chat_sessions :=
          [("chat_0", { messages := [], title := "New Chat 1",
                        timestamp := "t" }),
           ("chat_1", { messages := [], title := "New Chat 2",
                        timestamp := "t" })],
        current_chat_id := some "chat_0", chat_counter := 2 }
      "chat_0").current_chat_id = some "chat_1" := by
  refine ⟨(C5_delete_conversation_reassignment
    { chat_sessions :=
        [("chat_0", { messages := [], title := "New Chat 1",
                      timestamp := "t" }),
         ("chat_1", { messages := [], title := "New Chat 2",
                      timestamp := "t" })],
      current_chat_id := some "chat_0", chat_counter := 2 }
    "chat_0" (by decide)).2.1, ?_⟩
  have h := (C5_delete_conversation_reassignment
    { chat_sessions :=
        [("chat_0", { messages := [], title := "New Chat 1",
                      timestamp := "t" }),
         ("chat_1", { messages := [], title := "New Chat 2",
                      timestamp := "t" })],
      current_chat_id := some "chat_0", chat_counter := 2 }
    "chat_0" (by decide)).2.2.2.1 rfl (by decide)
  rw [h]
  rfl

/-- C2: for every state with an active, present conversation, a prompt run
whose pipeline call raises is caught: the run terminates normally (the
handler is a total function), exactly one assistant-role message carrying the
error string is appended after the user message — the count grows by exactly
2 overall, i.e. by exactly 1 after the user message — and the session stays
on the same active conversation. -/
theorem C2_pipeline_failure_containment (s : SessionState)
    (ts p e : String) (sw : Bool) (cid : String) (conv : Conversation)
    (hcur : s.current_chat_id = some cid)
    (hconv : dictGet s.chat_sessions cid = some conv) :
    ∃ conv', dictGet (handle_prompt s ts p sw
        (PipelineResult.err e)).chat_sessions cid = some conv' ∧
      conv'.messages = conv.messages ++
        [user_message p,
         { role := "assistant", content := error_message e,
           sources := none }] ∧
      conv'.messages.length = conv.messages.length + 2 ∧
      (handle_prompt s ts p sw (PipelineResult.err e)).current_chat_id =
        some cid := by
  obtain ⟨conv', h1, h2, h3⟩ :=
    handle_prompt_spec s ts p sw (PipelineResult.err e) cid conv hcur hconv
  refine ⟨conv', h1, h2, ?_, h3⟩
  rw [h2]
  simp

theorem C2_pipeline_failure_containment_witness :
    (dictGet (handle_prompt
      { chat_sessions := [("chat_0",
          { messages := [], title := "New Chat 1", timestamp := "t" })],
        current_chat_id := some "chat_0", chat_counter := 1 }
      "t" "q" true (PipelineResult.err "boom")).chat_sessions
        "chat_0").map Conversation.messages =
      some [user_message "q",
        { role := "assistant", content := error_message "boom",
          sources := none }] ∧
    (handle_prompt
      { chat_sessions := [("chat_0",
          { messages := [], title := "New Chat 1", timestamp := "t" })],
        current_chat_id := some "chat_0", chat_counter := 1 }
      "t" "q" true (PipelineResult.err "boom")).current_chat_id =
      some "chat_0" := by
  obtain ⟨conv', h1, h2, h3, h4⟩ := C2_pipeline_failure_containment
    { chat_sessions := [("chat_0",
        { messages := [], title := "New Chat 1", timestamp := "t" })],
      current_chat_id := some "chat_0", chat_counter := 1 }
    "t" "q" "boom" true "chat_0"
    { messages := [], title := "New Chat 1", timestamp := "t" } rfl rfl
  constructor
  · rw [h1]
    show some conv'.messages = _
    rw [h2]
    rfl
  · exact h4

/-- C10: the assistant message appended on a caught pipeline exception has no
`sources` key, while the success-path assistant message always carries a
`sources` key holding a (possibly empty) list; the renderer distinguishes the
two by key presence. -/
theorem C10_error_path_sources_key_absent (s : SessionState)
    (ts p e a : String) (docs : List String) (sw : Bool)
    (cid : String) (conv : Conversation)
    (hcur : s.current_chat_id = some cid)
    (hconv : dictGet s.chat_sessions cid = some conv) :
    (∃ conv₁, dictGet (handle_prompt s ts p sw
        (PipelineResult.err e)).chat_sessions cid = some conv₁ ∧
      conv₁.messages = conv.messages ++ [user_message p,
        { role := "assistant", content := error_message e,
          sources := none }]) ∧
    (∃ conv₂, dictGet (handle_prompt s ts p sw
        (PipelineResult.ok a docs)).chat_sessions cid = some conv₂ ∧
      conv₂.messages = conv.messages ++ [user_message p,
        { role := "assistant", content := a,
          sources := some (sources_list docs sw) }]) ∧
    renders_sources true
      { role := "assistant", content := error_message e,
        sources := none } = false ∧
    renders_sources true
      { role := "assistant", content := a,
        sources := some (sources_list docs sw) } = true := by
  obtain ⟨c1, h11, h12, -⟩ :=
    handle_prompt_spec s ts p sw (PipelineResult.err e) cid conv hcur hconv
  obtain ⟨c2, h21, h22, -⟩ :=
    handle_prompt_spec s ts p sw (PipelineResult.ok a docs) cid conv hcur
      hconv
  refine ⟨⟨c1, h11, h12⟩, ⟨c2, h21, h22⟩, ?_, ?_⟩
  · simp [renders_sources]
  · simp [renders_sources]

theorem C10_error_path_sources_key_absent_witness :
    (dictGet (handle_prompt
      { chat_sessions := [("chat_0",
          { messages := [], title := "New Chat 1", timestamp := "t" })],
        current_chat_id := some "chat_0", chat_counter := 1 }
      "t" "q" true (PipelineResult.err "E")).chat_sessions
        "chat_0").map Conversation.messages =
      some [user_message "q",
        { role := "assistant", content := error_message "E",
          sources := none }] ∧
    (dictGet (handle_prompt
      { chat_sessions := [("chat_0",
          { messages := [], title := "New Chat 1", timestamp := "t" })],
        current_chat_id := some "chat_0", chat_counter := 1 }
      "t" "q" true (PipelineResult.ok "ans" ["doc one"])).chat_sessions
        "chat_0").map Conversation.messages =
      some [user_message "q",
        { role := "assistant", content := "ans",
          sources := some (sources_list ["doc one"] true) }] ∧
    renders_sources true
      { role := "assistant", content := error_message "E",
        sources := none } = false ∧
    renders_sources true
      { role := "assistant", content := "ans",
        sources := some (sources_list ["doc one"] true) } = true := by
  obtain ⟨⟨c1, h11, h12⟩, ⟨c2, h21, h22⟩, h3, h4⟩ :=
    C10_error_path_sources_key_absent
      { chat_sessions := [("chat_0",
          { messages := [], title := "New Chat 1", timestamp := "t" })],
        current_chat_id := some "chat_0", chat_counter := 1 }
      "t" "q" "E" "ans" ["doc one"] true "chat_0"
      { messages := [], title := "New Chat 1", timestamp := "t" } rfl rfl
  refine ⟨?_, ?_, h3, h4⟩
  · rw [h11]
    show some c1.messages = _
    rw [h12]
    rfl
  · rw [h21]
    show some c2.messages = _
    rw [h22]
    rfl

/-- C3 counterexample: the claim says a passage of at most 300 characters
passes through unmodified, but the code appends the marker unconditionally:
on the 3-character passage "abc" the stored text is "abc...", not "abc". -/
theorem C3_evidence_truncation_counterexample :
    ("abc" : String).length ≤ 300 ∧ source_text "abc" ≠ "abc" := by
  have h3 : ("abc" : String).length = 3 := rfl
  refine ⟨by rw [h3]; omega, ?_⟩
  intro heq
  have hlen : (source_text "abc").length = 6 := by
    unfold source_text
    rw [str_take_of_le "abc" 300 (by rw [h3]; omega)]
    rfl
  rw [heq, h3] at hlen
  exact absurd hlen (by decide)

/-- C3 (amended): every retrieved passage is rendered and stored as its
first min(length, 300) characters with the fixed marker "..." appended
unconditionally; in particular a passage longer than 300 characters yields
exactly 300 characters plus the marker (total length 303), and a passage of
at most 300 characters yields the whole passage plus the marker. -/
theorem C3_evidence_truncation_amended (t : String) :
    source_text t = t.take 300 ++ "..." ∧
    (t.length ≤ 300 → source_text t = t ++ "...") ∧
    (300 < t.length → (source_text t).length = 303) := by
  refine ⟨rfl, ?_, ?_⟩
  · intro hle
    unfold source_text
    rw [str_take_of_le t 300 hle]
  · intro hgt
    show (t.take 300 ++ ("..." : String)).length = 303
    rw [str_length_eq_data, String.data_append, List.length_append,
      String.data_take, List.length_take]
    have hld : t.data.length = t.length := rfl
    rw [Nat.min_eq_left (by rw [hld]; omega)]
    rfl

theorem C3_evidence_truncation_amended_witness :
    source_text "abc" = "abc" ++ "..." ∧
    (source_text (String.mk (List.replicate 301 'a'))).length = 303 :=
  ⟨(C3_evidence_truncation_amended "abc").2.1 (by decide),
   (C3_evidence_truncation_amended (String.mk (List.replicate 301 'a'))).2.2
     (by show (300 : Nat) < (List.replicate 301 'a').length
         rw [List.length_replicate]
         omega)⟩

/-- C7: once a first call of `lazy_init_components` has succeeded, a second
call (under any environment) returns the very same memoized chain handle,
leaves the state unchanged, performs no reconstruction and issues no
index-creation call. -/
theorem C7_idempotent_client_initialization (env env' : InitEnv)
    (s : InitState)
    (hdone : s.initialization_done = false)
    (htrig : s.lazy_load_triggered = true)
    (hfb : env.fail_before_index = false)
    (hfa : env.fail_after_index = false) :
    (lazy_init_components env s).2.1 = some mk_qa_chain ∧
    (lazy_init_components env' (lazy_init_components env s).1).2.1 =
      (lazy_init_components env s).2.1 ∧
    (lazy_init_components env' (lazy_init_components env s).1).1 =
      (lazy_init_components env s).1 ∧
    (lazy_init_components env' (lazy_init_components env s).1).2.2 =
      { create_index_calls := [], qa_constructions := 0, waited := 0 } := by
  simp [lazy_init_components, hdone, htrig, hfb, hfa]

theorem C7_idempotent_client_initialization_witness :
    (lazy_init_components
      { existing_indexes := ["medical-chatbot-index"],
        listed_at := fun _ => false,
        fail_before_index := false, fail_after_index := false }
      { initialization_done := false, lazy_load_triggered := true,
        qa_chain := none }).2.1 = some mk_qa_chain ∧
    (lazy_init_components
      { existing_indexes := ["medical-chatbot-index"],
        listed_at := fun _ => false,
        fail_before_index := false, fail_after_index := false }
      (lazy_init_components
        { existing_indexes := ["medical-chatbot-index"],
          listed_at := fun _ => false,
          fail_before_index := false, fail_after_index := false }
        { initialization_done := false, lazy_load_triggered := true,
          qa_chain := none }).1).2.1 =
      (lazy_init_components
        { existing_indexes := ["medical-chatbot-index"],
          listed_at := fun _ => false,
          fail_before_index := false, fail_after_index := false }
        { initialization_done := false, lazy_load_triggered := true,
          qa_chain := none }).2.1 := by
  obtain ⟨h1, h2, -, -⟩ := C7_idempotent_client_initialization
    { existing_indexes := ["medical-chatbot-index"],
      listed_at := fun _ => false,
      fail_before_index := false, fail_after_index := false }
    { existing_indexes := ["medical-chatbot-index"],
      listed_at := fun _ => false,
      fail_before_index := false, fail_after_index := false }
    { initialization_done := false, lazy_load_triggered := true,
      qa_chain := none } rfl rfl rfl rfl
  exact ⟨h1, h2⟩

/-- C8 counterexample: the claim says initialization gives up with a failure
when the created index does not become queryable within the 60-second bound,
but the code merely exits the wait loop and proceeds: with the index absent
and never listed, the wait loop reaches 60 and initialization nevertheless
returns a successfully constructed chain. -/
theorem C8_index_creation_counterexample :
    (lazy_init_components
      { existing_indexes := [], listed_at := fun _ => false,
        fail_before_index := false, fail_after_index := false }
      { initialization_done := false, lazy_load_triggered := true,
        qa_chain := none }).2.1 = some mk_qa_chain ∧
    (lazy_init_components
      { existing_indexes := [], listed_at := fun _ => false,
        fail_before_index := false, fail_after_index := false }
      { initialization_done := false, lazy_load_triggered := true,
        qa_chain := none }).2.2.waited = 60 := by
  constructor
  · rfl
  · rfl

/-- C8 (amended): if the index is not listed at initialization time it is
created exactly once with fixed dimension 384 and cosine metric, and the
initialization polls the index listing for a bounded time (at most 60
seconds); when the bound elapses it stops waiting and proceeds with
construction regardless — no failure is raised by the wait stage, and
construction succeeds whenever the remaining steps succeed. -/
theorem C8_index_creation_amended (env : InitEnv) (s : InitState)
    (hdone : s.initialization_done = false)
    (htrig : s.lazy_load_triggered = true)
    (hfb : env.fail_before_index = false)
    (habsent : "medical-chatbot-index" ∉ env.existing_indexes) :
    (lazy_init_components env s).2.2.create_index_calls =
      [{ name := "medical-chatbot-index", dimension := 384,
         metric := "cosine" }] ∧
    (lazy_init_components env s).2.2.waited ≤ 60 ∧
    (env.fail_after_index = false →
      (lazy_init_components env s).2.1 = some mk_qa_chain) := by
  by_cases hfa : env.fail_after_index = true
  · simp [lazy_init_components, hdone, htrig, hfb, hfa, habsent,
      wait_for_index_le]
  · simp only [Bool.not_eq_true] at hfa
    simp [lazy_init_components, hdone, htrig, hfb, hfa, habsent,
      wait_for_index_le]

theorem C8_index_creation_amended_witness :
    (lazy_init_components
      { existing_indexes := [], listed_at := fun _ => true,
        fail_before_index := false, fail_after_index := false }
      { initialization_done := false, lazy_load_triggered := true,
        qa_chain := none }).2.2.create_index_calls =
      [{ name := "medical-chatbot-index", dimension := 384,
         metric := "cosine" }] ∧
    (lazy_init_components
      { existing_indexes := [], listed_at := fun _ => true,
        fail_before_index := false, fail_after_index := false }
      { initialization_done := false, lazy_load_triggered := true,
        qa_chain := none }).2.2.waited ≤ 60 := by
  obtain ⟨h1, h2, -⟩ := C8_index_creation_amended
    { existing_indexes := [], listed_at := fun _ => true,
      fail_before_index := false, fail_after_index := false }
    { initialization_done := false, lazy_load_triggered := true,
      qa_chain := none } rfl rfl rfl (by simp)
  exact ⟨h1, h2⟩

end MedicalChatbot
